import Mathlib

/-!
Verification of the pjrt-rs host-side PJRT runtime client.

Shallow embedding of the Rust sources under pjrt/src (api.rs, executable.rs,
loaded_executable.rs, memory_layout.rs). Opaque foreign handles are modelled
as natural numbers with 0 as the null pointer; foreign entry-point
invocations and wrapper constructions are recorded in an explicit event
trace; Rust Result errors and Rust panics are kept distinct in an Outcome
type. Parts of the repository that are referenced but whose sources are not
available (the Event and Buffer wrapper modules and the process-wide plugin
registry) are modelled from the specification and are marked as such in
their doc comments.
-/

namespace PjrtRs

/-- Opaque foreign pointers and handles are modelled as naturals; 0 is null. -/
abbrev Ptr := Nat

/-- Foreign entry points whose invocation we track in traces. -/
inductive FCall where
  | pluginInitialize (api : Ptr)
  | getExecutable
  | numOutputs
  | execute
  | errorMessage (e : Ptr)
  | errorDestroy (e : Ptr)
  | eventAwait (e : Ptr)
  | eventOnReady (e : Ptr)
  | eventDestroy (e : Ptr)
  | executableDestroy (h : Ptr)
  | loadedExecutableDestroy (h : Ptr)
  | serializedDeleter (h : Ptr)
  | query (name : String)
deriving DecidableEq, Repr

/-- Trace events: a foreign call, or the construction of an owned wrapper. -/
inductive Ev where
  | call (c : FCall)
  | wrapEvent (h : Ptr)
  | wrapBuffer (h : Ptr)
deriving DecidableEq, Repr

/-- The recoverable error type of the crate (error.rs variants used here). -/
inductive RtError where
  | pjrtError (msg : String)
  | nullFunctionPointer (name : String)
  | invalidMemoryLayoutType (v : Nat)
  | nullPointer
deriving DecidableEq, Repr

/-- Result of a Rust computation: Ok, a recoverable Err, or a panic. -/
inductive Outcome (α : Type) where
  | ok (a : α)
  | err (e : RtError)
  | panicked (msg : String)
deriving DecidableEq, Repr

/-- Number of occurrences of a given foreign call in a trace. -/
def countCall (c : FCall) (t : List Ev) : Nat := t.count (Ev.call c)

/-! ## Memory layout codec (memory_layout.rs) -/

/-- Host-side tiled layout (struct MemoryLayoutTiled). -/
structure MemoryLayoutTiled where
  minor_to_major : List Int
  tile_dims : Option (List Int)
  tile_dim_sizes : Option (List Nat)
deriving DecidableEq, Repr

/-- Host-side strided layout (struct MemoryLayoutStrides). -/
structure MemoryLayoutStrides where
  byte_strides : List Int
deriving DecidableEq, Repr

/-- Host-side layout value (enum MemoryLayout). -/
inductive MemoryLayout where
  | tiled (t : MemoryLayoutTiled)
  | strides (s : MemoryLayoutStrides)
deriving DecidableEq, Repr

/-- MemoryLayout::from_tiled: stores the caller-supplied fields unvalidated. -/
def MemoryLayout.from_tiled (minor_to_major : List Int)
    (tile_dims : Option (List Int)) (tile_dim_sizes : Option (List Nat)) :
    MemoryLayout :=
  .tiled ⟨minor_to_major, tile_dims, tile_dim_sizes⟩

/-- MemoryLayout::from_strides. -/
def MemoryLayout.from_strides (byte_strides : List Int) : MemoryLayout :=
  .strides ⟨byte_strides⟩

/-- The spec invariant: the two tiling fields are both present or both absent. -/
def MemoryLayout.tilingFieldsConsistent : MemoryLayout → Bool
  | .tiled t => t.tile_dims.isSome == t.tile_dim_sizes.isSome
  | .strides _ => true

/-- Host-side layout type tag (enum MemoryLayoutType). -/
inductive MemoryLayoutType where
  | tiled
  | strides
deriving DecidableEq, Repr

/-- PJRT_Buffer_MemoryLayout_Type_Tiled, the C tag value for tiled layouts. -/
def tiledTag : Nat := 0

/-- PJRT_Buffer_MemoryLayout_Type_Strides, the C tag value for strides. -/
def stridesTag : Nat := 1

/-- impl TryFrom of u32 for MemoryLayoutType: unknown tags give a recoverable
InvalidMemoryLayoutType error. -/
def MemoryLayoutType.tryFromU32 (value : Nat) : Outcome MemoryLayoutType :=
  if value = tiledTag then .ok .tiled
  else if value = stridesTag then .ok .strides
  else .err (.invalidMemoryLayoutType value)

/-- Foreign tiled payload: borrowed arrays modelled as index functions plus
the sizes the foreign side reports. -/
structure ForeignTiled where
  minor_to_major : Nat → Int
  minor_to_major_size : Nat
  tile_dims : Nat → Int
  tile_dim_sizes : Nat → Nat
  num_tiles : Nat

/-- Foreign strides payload. -/
structure ForeignStrides where
  byte_strides : Nat → Int
  num_byte_strides : Nat

/-- Foreign layout struct PJRT_Buffer_MemoryLayout: a u32 tag plus a union,
modelled as both payloads present and selected by the tag. -/
structure PJRT_Buffer_MemoryLayout where
  type_ : Nat
  tiled : ForeignTiled
  strides : ForeignStrides

/-- slice::from_raw_parts on an i64 array, copied into a host list. -/
def sliceI (f : Nat → Int) (n : Nat) : List Int := (List.range n).map f

/-- slice::from_raw_parts on a usize array, copied into a host list. -/
def sliceN (f : Nat → Nat) (n : Nat) : List Nat := (List.range n).map f

/-- impl TryFrom of the foreign layout struct for MemoryLayout: decode the
tag, then copy the borrowed arrays into host-owned lists; num_tiles = 0
yields both tiling fields absent, otherwise both present. -/
def MemoryLayout.tryFromForeign (l : PJRT_Buffer_MemoryLayout) :
    Outcome MemoryLayout :=
  match MemoryLayoutType.tryFromU32 l.type_ with
  | .err e => .err e
  | .panicked m => .panicked m
  | .ok .tiled =>
    let minor_to_major :=
      if l.tiled.minor_to_major_size = 0 then []
      else sliceI l.tiled.minor_to_major l.tiled.minor_to_major_size
    if l.tiled.num_tiles = 0 then
      .ok (.tiled ⟨minor_to_major, none, none⟩)
    else
      .ok (.tiled ⟨minor_to_major,
        some (sliceI l.tiled.tile_dims l.tiled.num_tiles),
        some (sliceN l.tiled.tile_dim_sizes l.tiled.num_tiles)⟩)
  | .ok .strides =>
    .ok (.strides ⟨sliceI l.strides.byte_strides l.strides.num_byte_strides⟩)

/-- A concrete foreign layout struct with the unknown tag value 5. -/
def layoutTag5 : PJRT_Buffer_MemoryLayout :=
  ⟨5, ⟨fun _ => 0, 0, fun _ => 0, fun _ => 0, 0⟩, ⟨fun _ => 0, 0⟩⟩

/-! ## Error bridge (api.rs, Api::err_or) -/

/-- The slots of the foreign function table that the error bridge uses:
whether the PJRT_Error_Message and PJRT_Error_Destroy entries are present,
and the message the foreign side reports for an error handle. -/
structure ErrorTable where
  hasErrorMessage : Bool
  hasErrorDestroy : Bool
  messageOf : Ptr → String

/-- Api::err_or: a null error handle yields Ok(value); a non-null handle is
resolved by extracting the message and destroying the handle, each through a
table entry that may be absent, in which case the lookup error propagates at
once (the question-mark operator) and the remaining foreign calls are
skipped. -/
def Api.err_or {α : Type} (t : ErrorTable) (e : Ptr) (v : α) :
    Outcome α × List Ev :=
  if e = 0 then (.ok v, [])
  else if t.hasErrorMessage = false then
    (.err (.nullFunctionPointer "PJRT_Error_Message"), [])
  else if t.hasErrorDestroy = false then
    (.err (.nullFunctionPointer "PJRT_Error_Destroy"),
      [Ev.call (.errorMessage e)])
  else
    (.err (.pjrtError (t.messageOf e)),
      [Ev.call (.errorMessage e), Ev.call (.errorDestroy e)])

/-- A function table whose PJRT_Error_Message entry is absent. -/
def missingMessageTable : ErrorTable := ⟨false, true, fun _ => "boom"⟩

/-- A function table with both error-bridge entries present. -/
def goodTable : ErrorTable := ⟨true, true, fun _ => "boom"⟩

/-! ## Claim theorems for the layout codec and the error bridge -/

/-- C7 counterexample: from_tiled with a partial pair of tiling fields
returns a MemoryLayout value violating the both-present-or-both-absent
invariant instead of rejecting it; so not every operation producing a
MemoryLayout yields a value satisfying the invariant. -/
theorem c7_from_tiled_half_tiling_not_rejected :
    MemoryLayout.tilingFieldsConsistent
      (MemoryLayout.from_tiled [] (some [1]) none) = false := rfl

/-- C7 amended: the foreign-to-host decoder always yields layouts whose two
tiling fields are both present or both absent; from_tiled stores its
optional arguments unvalidated, so its result satisfies the invariant
exactly when the caller passes both fields or neither; no partial-field
rejection is performed anywhere. -/
theorem c7_tiling_fields_consistent :
    (∀ (l : PJRT_Buffer_MemoryLayout) (m : MemoryLayout),
      MemoryLayout.tryFromForeign l = .ok m →
        m.tilingFieldsConsistent = true) ∧
    (∀ (mtm : List Int) (td : Option (List Int)) (tds : Option (List Nat)),
      td.isSome = tds.isSome →
        (MemoryLayout.from_tiled mtm td tds).tilingFieldsConsistent = true) := by
  constructor
  · intro l m h
    unfold MemoryLayout.tryFromForeign at h
    unfold MemoryLayoutType.tryFromU32 at h
    by_cases h0 : l.type_ = tiledTag
    · simp only [h0, if_pos rfl] at h
      by_cases hn : l.tiled.num_tiles = 0
      · simp only [hn, if_pos rfl] at h
        cases h
        rfl
      · simp only [hn, if_neg hn] at h
        cases h
        rfl
    · by_cases h1 : l.type_ = stridesTag
      · simp only [h0, h1, if_neg h0, if_pos rfl] at h
        cases h
        rfl
      · simp only [h0, h1, if_neg h0, if_neg h1] at h
        cases h
  · intro mtm td tds h
    simp [MemoryLayout.from_tiled, MemoryLayout.tilingFieldsConsistent, h]

/-- C7 witness: the amended theorem applied at concrete inputs. -/
theorem c7_tiling_fields_consistent_witness :
    MemoryLayout.tilingFieldsConsistent
      (MemoryLayout.tiled ⟨[], none, none⟩) = true ∧
    MemoryLayout.tilingFieldsConsistent
      (MemoryLayout.from_tiled [] (some [1]) (some [2])) = true :=
  ⟨c7_tiling_fields_consistent.1
      { type_ := 0
        tiled := ⟨fun _ => 0, 0, fun _ => 0, fun _ => 0, 0⟩
        strides := ⟨fun _ => 0, 0⟩ }
      (MemoryLayout.tiled ⟨[], none, none⟩) rfl,
    c7_tiling_fields_consistent.2 [] (some [1]) (some [2]) rfl⟩

/-- C8: any tag value outside the known set (neither the tiled tag 0 nor the
strides tag 1) makes the tag conversion, and hence the whole foreign-to-host
layout conversion, fail with the recoverable InvalidMemoryLayoutType error
(the UnrecognizedVariant of the spec taxonomy), regardless of the contents
of the rest of the foreign struct. -/
theorem c8_unknown_tag_recoverable (v : Nat) (l : PJRT_Buffer_MemoryLayout)
    (h0 : v ≠ tiledTag) (h1 : v ≠ stridesTag) (ht : l.type_ = v) :
    MemoryLayoutType.tryFromU32 v = .err (.invalidMemoryLayoutType v) ∧
    MemoryLayout.tryFromForeign l = .err (.invalidMemoryLayoutType v) := by
  have htag : MemoryLayoutType.tryFromU32 v =
      .err (.invalidMemoryLayoutType v) := by
    unfold MemoryLayoutType.tryFromU32
    simp [h0, h1]
  refine ⟨htag, ?_⟩
  unfold MemoryLayout.tryFromForeign
  rw [ht, htag]

/-- C8 witness: the unknown tag value 5 is rejected recoverably. -/
theorem c8_unknown_tag_recoverable_witness :
    MemoryLayoutType.tryFromU32 5 = .err (.invalidMemoryLayoutType 5) ∧
    MemoryLayout.tryFromForeign layoutTag5 =
      .err (.invalidMemoryLayoutType 5) :=
  c8_unknown_tag_recoverable 5 layoutTag5 (by decide) (by decide) rfl

/-- C4 counterexample: with the PJRT_Error_Message table entry absent, a
non-null error handle is resolved to a NullFunctionPointer error with zero
foreign destroy calls, refuting the exactly-one-destroy side effect as well
as the claimed RuntimeError result. -/
theorem c4_missing_entry_skips_destroy :
    (1 : Ptr) ≠ 0 ∧
    Api.err_or missingMessageTable 1 (0 : Nat) =
      (.err (.nullFunctionPointer "PJRT_Error_Message"), []) ∧
    countCall (.errorDestroy 1) (Api.err_or missingMessageTable 1 (0 : Nat)).2
      = 0 := by
  refine ⟨by decide, rfl, rfl⟩

/-- C4 amended: when the function table provides both the error-message and
the error-destroy entry points, the bridge behaves exactly as claimed: a
null handle yields Ok(value) with no foreign calls, and a non-null handle
yields Err(RuntimeError with the extracted message) after exactly one
message call followed by exactly one destroy call on that handle. If either
entry point is absent, the bridge instead fails with a NullFunctionPointer
error and the destroy call can be skipped. -/
theorem c4_err_or_resolves {α : Type} (t : ErrorTable) (v : α) (e : Ptr)
    (hm : t.hasErrorMessage = true) (hd : t.hasErrorDestroy = true) :
    Api.err_or t 0 v = (.ok v, []) ∧
    (e ≠ 0 →
      Api.err_or t e v = (.err (.pjrtError (t.messageOf e)),
        [Ev.call (.errorMessage e), Ev.call (.errorDestroy e)]) ∧
      countCall (.errorDestroy e) (Api.err_or t e v).2 = 1) := by
  constructor
  · simp [Api.err_or]
  · intro he
    have h : Api.err_or t e v = (.err (.pjrtError (t.messageOf e)),
        [Ev.call (.errorMessage e), Ev.call (.errorDestroy e)]) := by
      simp [Api.err_or, he, hm, hd]
    refine ⟨h, ?_⟩
    rw [h]
    simp [countCall]

/-- C4 witness: the amended theorem applied to a complete table and the
non-null error handle 1 carrying the message boom. -/
theorem c4_err_or_resolves_witness :
    Api.err_or goodTable 1 (0 : Nat) = (.err (.pjrtError "boom"),
      [Ev.call (.errorMessage 1), Ev.call (.errorDestroy 1)]) ∧
    countCall (.errorDestroy 1) (Api.err_or goodTable 1 (0 : Nat)).2 = 1 :=
  (c4_err_or_resolves goodTable (0 : Nat) 1 rfl rfl).2 (by decide)

/-! ## Handle wrappers (executable.rs, loaded_executable.rs) -/

/-- The read-only metadata queries of Executable (executable.rs); none of
them destroys the wrapped handle. -/
inductive ExecQuery where
  | name
  | num_replicas
  | num_partitions
  | num_outputs
  | code_size
  | fingerprint
  | cost_analysis
deriving DecidableEq, Repr

/-- The foreign entry point each Executable query invokes. -/
def ExecQuery.foreignName : ExecQuery → String
  | .name => "PJRT_Executable_Name"
  | .num_replicas => "PJRT_Executable_NumReplicas"
  | .num_partitions => "PJRT_Executable_NumPartitions"
  | .num_outputs => "PJRT_Executable_NumOutputs"
  | .code_size => "PJRT_Executable_SizeOfGeneratedCodeInBytes"
  | .fingerprint => "PJRT_Executable_Fingerprint"
  | .cost_analysis => "PJRT_Executable_GetCostAnalysis"

/-- Executable::new: asserts the incoming handle is non-null (a panic, not a
recoverable error) before taking ownership. -/
def Executable.new (h : Ptr) : Outcome Ptr :=
  if h = 0 then .panicked "assertion failed: !ptr.is_null()" else .ok h

/-- The foreign calls one Executable query performs. -/
def Executable.queryTrace (q : ExecQuery) : List Ev :=
  [Ev.call (.query q.foreignName)]

/-- Drop for Executable: one PJRT_Executable_Destroy call. -/
def Executable.dropTrace (h : Ptr) : List Ev :=
  [Ev.call (.executableDestroy h)]

/-- The foreign-call trace of a whole Executable lifetime: any sequence of
read-only queries, then the single drop at release. -/
def Executable.lifeTrace (h : Ptr) (qs : List ExecQuery) : List Ev :=
  (qs.map Executable.queryTrace).flatten ++ Executable.dropTrace h

/-- LoadedExecutable::wrap: asserts the incoming handle is non-null. -/
def LoadedExecutable.wrap (h : Ptr) : Outcome Ptr :=
  if h = 0 then .panicked "assertion failed: !ptr.is_null()" else .ok h

/-- Drop for LoadedExecutable: one PJRT_LoadedExecutable_Destroy call. -/
def LoadedExecutable.dropTrace (h : Ptr) : List Ev :=
  [Ev.call (.loadedExecutableDestroy h)]

/-- The foreign-call trace of a whole LoadedExecutable lifetime: read-only
or state-querying entry points (delete, is_deleted, fingerprint, the
metadata calls), then the single destroy at release. -/
def LoadedExecutable.lifeTrace (h : Ptr) (qs : List String) : List Ev :=
  qs.map (fun s => Ev.call (.query s)) ++ LoadedExecutable.dropTrace h

/-- SerializedExecutable (executable.rs): the opaque foreign blob handle,
the plugin-supplied deleter being recorded by the serializedDeleter event,
and the copied byte view. -/
structure SerializedExecutable where
  ptr : Ptr
  data : List Nat
deriving DecidableEq, Repr

/-- SerializedExecutable::bytes performs no foreign call. -/
def SerializedExecutable.bytesTrace : List Ev := []

/-- Drop for SerializedExecutable: one invocation of the plugin-supplied
deleter on the blob handle. -/
def SerializedExecutable.dropTrace (s : SerializedExecutable) : List Ev :=
  [Ev.call (.serializedDeleter s.ptr)]

/-- The foreign-call trace of a whole SerializedExecutable lifetime: any
number of bytes() reads, then the single deleter invocation at release. -/
def SerializedExecutable.lifeTrace (s : SerializedExecutable)
    (reads : Nat) : List Ev :=
  (List.replicate reads SerializedExecutable.bytesTrace).flatten ++
    SerializedExecutable.dropTrace s

/-- Queries of an Executable never invoke its destroy entry point. -/
theorem executable_queries_no_destroy (h : Ptr) (qs : List ExecQuery) :
    countCall (.executableDestroy h) ((qs.map Executable.queryTrace).flatten)
      = 0 := by
  induction qs with
  | nil => rfl
  | cons q rest ih =>
    simp only [List.map_cons, List.flatten_cons, countCall, List.count_append]
    rw [show (List.count (Ev.call (.executableDestroy h))
      (Executable.queryTrace q)) = 0 from rfl]
    simpa [countCall] using ih

/-- C6: wrapper lifecycle discipline for the wrappers of executable.rs and
loaded_executable.rs. Construction of Executable and LoadedExecutable
panics on a null handle (fatal, not recoverable) and succeeds otherwise;
over any full lifetime, however many read-only operations were performed
first, the matching foreign destroy entry point runs exactly once, and the
plugin-supplied deleter of a SerializedExecutable runs exactly once no
matter how many bytes() reads preceded release. -/
theorem c6_wrapper_lifecycle (h : Ptr) (qs : List ExecQuery)
    (qs2 : List String) (s : SerializedExecutable) (reads : Nat)
    (hnz : h ≠ 0) :
    Executable.new 0 = .panicked "assertion failed: !ptr.is_null()" ∧
    LoadedExecutable.wrap 0 = .panicked "assertion failed: !ptr.is_null()" ∧
    Executable.new h = .ok h ∧
    LoadedExecutable.wrap h = .ok h ∧
    countCall (.executableDestroy h) (Executable.lifeTrace h qs) = 1 ∧
    countCall (.loadedExecutableDestroy h)
      (LoadedExecutable.lifeTrace h qs2) = 1 ∧
    countCall (.serializedDeleter s.ptr)
      (SerializedExecutable.lifeTrace s reads) = 1 := by
  refine ⟨rfl, rfl, by simp [Executable.new, hnz],
    by simp [LoadedExecutable.wrap, hnz], ?_, ?_, ?_⟩
  · unfold Executable.lifeTrace
    simp only [countCall, List.count_append]
    have h1 := executable_queries_no_destroy h qs
    simp only [countCall] at h1
    rw [h1]
    simp [Executable.dropTrace, List.count_cons]
  · unfold LoadedExecutable.lifeTrace
    simp only [countCall, List.count_append]
    have h1 : List.count (Ev.call (.loadedExecutableDestroy h))
        (qs2.map (fun s => Ev.call (.query s))) = 0 := by
      rw [List.count_eq_zero]
      intro hmem
      rcases List.mem_map.1 hmem with ⟨x, _, hx⟩
      cases hx
    rw [h1]
    simp [LoadedExecutable.dropTrace, List.count_cons]
  · unfold SerializedExecutable.lifeTrace
    have h1 : (List.replicate reads SerializedExecutable.bytesTrace).flatten
        = ([] : List Ev) := by
      induction reads with
      | zero => rfl
      | succ n ih => simp [List.replicate_succ, SerializedExecutable.bytesTrace, ih]
    rw [h1]
    simp [countCall, SerializedExecutable.dropTrace, List.count_cons]

/-- C6 witness: a concrete Executable lifetime with three queries, a
LoadedExecutable lifetime with two queries, and a serialized blob read
twice; each destroy or deleter runs exactly once. -/
theorem c6_wrapper_lifecycle_witness :
    Executable.new 0 = .panicked "assertion failed: !ptr.is_null()" ∧
    LoadedExecutable.wrap 0 = .panicked "assertion failed: !ptr.is_null()" ∧
    Executable.new 7 = .ok 7 ∧
    LoadedExecutable.wrap 7 = .ok 7 ∧
    countCall (.executableDestroy 7)
      (Executable.lifeTrace 7 [.name, .num_outputs, .name]) = 1 ∧
    countCall (.loadedExecutableDestroy 7)
      (LoadedExecutable.lifeTrace 7
        ["PJRT_LoadedExecutable_Delete", "PJRT_LoadedExecutable_IsDeleted"])
      = 1 ∧
    countCall (.serializedDeleter 3)
      (SerializedExecutable.lifeTrace ⟨3, [1, 2]⟩ 2) = 1 :=
  c6_wrapper_lifecycle 7 [.name, .num_outputs, .name]
    ["PJRT_LoadedExecutable_Delete", "PJRT_LoadedExecutable_IsDeleted"]
    ⟨3, [1, 2]⟩ 2 (by decide)

/-! ## Execution protocol (loaded_executable.rs) -/

/-- A Buffer wrapper reduced to the native handle it owns. -/
structure Buffer where
  ptr : Ptr
deriving DecidableEq, Repr

/-- The HashSet fold of the ExecuteInputs impl for Vec of Vec of Buffer:
the number of distinct inner lengths (insertion into a set modelled by a
duplicate-free accumulator list). -/
def innerSizeSetCard (inputs : List (List Buffer)) : Nat :=
  ((inputs.map List.length).foldl
    (fun set n => if n ∈ set then set else n :: set) []).length

/-- impl ExecuteInputs for Vec of Vec of Buffer: asserts that exactly one
distinct inner length occurs (an assert_eq panic otherwise, which also
fires for an empty outer list, whose set of inner lengths is empty), then
collects the native buffer handles row by row. -/
def vecVecBufferPtrs (inputs : List (List Buffer)) :
    Outcome (List (List Ptr)) :=
  if innerSizeSetCard inputs = 1 then
    .ok (inputs.map (fun bs => bs.map Buffer.ptr))
  else .panicked "all inner vectors must have the same length"

/-- The foreign environment of one execution call: the output count the
executable metadata reports, the error handle the execute entry point
returns (0 = success), its message, the event handle the plugin writes for
each device, the buffer handle the plugin writes for device i and output
slot j, and the host address of the single O-slot output_inner block. -/
structure ExecOracle where
  num_outputs : Nat
  executeError : Ptr
  executeErrorMsg : String
  eventOf : Nat → Ptr
  outputOf : Nat → Nat → Ptr
  outBase : Ptr

/-- The sequence of raw writes the plugin performs through the row pointers
it was handed: for each device index i with row base b, it stores the
handle for (i, j) at address b + j, for j below num_outputs. -/
def writeSeq (rowPtrs : List Ptr) (numOutputs : Nat)
    (w : Nat → Nat → Ptr) : List (Ptr × Ptr) :=
  (rowPtrs.enum.map (fun p =>
    (List.range numOutputs).map (fun j => (p.2 + j, w p.1 j)))).flatten

/-- Applying a sequence of raw writes to host memory; later writes win. -/
def runWrites : List (Ptr × Ptr) → (Ptr → Ptr) → (Ptr → Ptr)
  | [], mem => mem
  | (a, v) :: rest, mem =>
    runWrites rest (fun x => if x = a then v else mem x)

/-- The output rows call_execute reads back after the plugin filled the
storage behind the row pointers: uninitialized slots read as 0 (null). -/
def readRows (rowPtrs : List Ptr) (numOutputs : Nat)
    (w : Nat → Nat → Ptr) : List (List Ptr) :=
  let mem := runWrites (writeSeq rowPtrs numOutputs w) (fun _ => 0)
  rowPtrs.map (fun b => (List.range numOutputs).map (fun j => mem (b + j)))

/-- Modelled from the spec: the disjoint per-device rows of a correctly
pre-allocated D times O output-handle matrix, row i starting at
base + i * O. The code under src does not allocate rows this way; this
definition exists only to compare against it. -/
def specRowPtrs (base : Ptr) (numDevices numOutputs : Nat) : List Ptr :=
  (List.range numDevices).map (fun i => base + i * numOutputs)

/-- LoadedExecutable::call_execute specialised to the list-of-lists input
shape. Faithful to the source order: it first queries the executable and
its output count (two foreign calls), then marshals the inputs (which can
panic), indexes the first row, allocates the output storage - one O-slot
block whose base address is repeated for every device row, exactly as
vec bang of Some(output_inner.as_slice()) repeated num_devices times does -
issues the execute call, and on success wraps every event and every
read-back output handle. The null-handle assertions of Event::wrap and
Buffer::wrap are modelled from the spec (event.rs and buffer.rs are not
under src): a null handle after claimed success panics. -/
def call_execute (o : ExecOracle) (inputs : List (List Buffer)) :
    Outcome (List Ptr × List (List Ptr)) × List Ev :=
  let t0 : List Ev := [Ev.call .getExecutable, Ev.call .numOutputs]
  match vecVecBufferPtrs inputs with
  | .panicked m => (.panicked m, t0)
  | .err e => (.err e, t0)
  | .ok input_buffers =>
    match input_buffers with
    | [] => (.panicked "index out of bounds", t0)
    | _ :: _ =>
      let num_devices := input_buffers.length
      let rowPtrs : List Ptr := List.replicate num_devices o.outBase
      let t1 := t0 ++ [Ev.call .execute]
      if o.executeError ≠ 0 then
        (.err (.pjrtError o.executeErrorMsg), t1)
      else
        let eventHandles := (List.range num_devices).map o.eventOf
        let outRows := readRows rowPtrs o.num_outputs o.outputOf
        if eventHandles.any (fun e => e = 0) then
          (.panicked "Event::wrap of a null handle", t1)
        else if outRows.any (fun row => row.any (fun h => h = 0)) then
          (.panicked "Buffer::wrap of a null handle",
            t1 ++ eventHandles.map Ev.wrapEvent)
        else
          (.ok (eventHandles, outRows),
            t1 ++ eventHandles.map Ev.wrapEvent ++
              outRows.flatten.map Ev.wrapBuffer)

/-- True for trace events that record a wrapper construction. -/
def isWrap : Ev → Bool
  | .wrapEvent _ => true
  | .wrapBuffer _ => true
  | .call _ => false

/-- A concrete successful oracle: one output per device, execute succeeds,
the plugin writes event handle 20 + i and output handle 10 + i for device
i, and output_inner lives at host address 100. -/
def oracle1 : ExecOracle :=
  ⟨1, 0, "", fun i => 20 + i, fun i _ => 10 + i, 100⟩

/-- A concrete oracle whose execute entry point fails with handle 7. -/
def oracleFail : ExecOracle :=
  ⟨1, 7, "execute boom", fun i => 20 + i, fun i _ => 10 + i, 100⟩

/-- If marshaling succeeds, exactly one distinct inner length occurred. -/
theorem vecVecBufferPtrs_ok_card (inputs : List (List Buffer))
    (bufs : List (List Ptr)) (hok : vecVecBufferPtrs inputs = .ok bufs) :
    innerSizeSetCard inputs = 1 := by
  by_contra hne
  simp [vecVecBufferPtrs, hne] at hok

/-- If marshaling succeeds, the rows are the per-device handle lists. -/
theorem vecVecBufferPtrs_ok_eq (inputs : List (List Buffer))
    (bufs : List (List Ptr)) (hok : vecVecBufferPtrs inputs = .ok bufs) :
    bufs = inputs.map (fun bs => bs.map Buffer.ptr) := by
  have h1 := vecVecBufferPtrs_ok_card inputs bufs hok
  simp [vecVecBufferPtrs, h1] at hok
  exact hok.symm

/-- If marshaling succeeds, the outer list was non-empty. -/
theorem vecVecBufferPtrs_ok_ne_nil (inputs : List (List Buffer))
    (bufs : List (List Ptr)) (hok : vecVecBufferPtrs inputs = .ok bufs) :
    inputs ≠ [] := by
  intro hempty
  have h1 := vecVecBufferPtrs_ok_card inputs bufs hok
  rw [hempty] at h1
  simp [innerSizeSetCard] at h1

/-- C1: the pre-allocated output storage is not a D times O matrix: the
code allocates one O-slot block and repeats its base address for every
device row, so for D = 2 devices and O = 1 output, with the plugin writing
handle 10 for device 0 and handle 11 for device 1, both returned rows read
back [11] - device 0 receives a handle it does not own and handle 10 is
lost, while disjoint spec rows would read back [[10], [11]]. -/
theorem c1_output_rows_aliased :
    (call_execute oracle1 [[⟨1⟩], [⟨2⟩]]).1 = .ok ([20, 21], [[11], [11]]) ∧
    readRows (List.replicate 2 oracle1.outBase) 1 oracle1.outputOf
      = [[11], [11]] ∧
    readRows (specRowPtrs oracle1.outBase 2 1) 1 oracle1.outputOf
      = [[10], [11]] ∧
    ([[11], [11]] : List (List Ptr)) ≠ [[10], [11]] := by decide

/-- C2 counterexample: on the unequal-length input [[b1, b2], [b3]] the
call fails by a panic (an assert_eq, not a recoverable CallerPrecondition
error), and foreign entry points have already been invoked before the
check: the trace contains the GetExecutable metadata call. -/
theorem c2_foreign_calls_precede_mismatch_panic :
    (call_execute oracle1 [[⟨1⟩, ⟨2⟩], [⟨3⟩]]).1
      = .panicked "all inner vectors must have the same length" ∧
    Ev.call .getExecutable ∈ (call_execute oracle1 [[⟨1⟩, ⟨2⟩], [⟨3⟩]]).2
    := by decide

/-- C2 amended: a list-of-lists input with unequal inner lengths makes
call_execute fail by the assert_eq panic of the input marshaling step, and
the execute entry point is never invoked for such an input; however the
failure is a panic rather than a recoverable error, and it happens after
the two metadata foreign calls (GetExecutable, NumOutputs) that
call_execute issues first - those are exactly the foreign calls in the
trace. -/
theorem c2_eager_check_panics (o : ExecOracle)
    (inputs : List (List Buffer)) (h : innerSizeSetCard inputs ≠ 1) :
    (call_execute o inputs).1
      = .panicked "all inner vectors must have the same length" ∧
    Ev.call .execute ∉ (call_execute o inputs).2 ∧
    (call_execute o inputs).2
      = [Ev.call .getExecutable, Ev.call .numOutputs] := by
  have hv : vecVecBufferPtrs inputs
      = .panicked "all inner vectors must have the same length" := by
    simp [vecVecBufferPtrs, h]
  refine ⟨?_, ?_, ?_⟩
  · simp [call_execute, hv]
  · simp [call_execute, hv]
  · simp [call_execute, hv]

/-- C2 witness: the amended theorem at the concrete mismatched input. -/
theorem c2_eager_check_panics_witness :
    (call_execute oracle1 [[⟨1⟩, ⟨2⟩], [⟨3⟩]]).1
      = .panicked "all inner vectors must have the same length" ∧
    Ev.call .execute ∉ (call_execute oracle1 [[⟨1⟩, ⟨2⟩], [⟨3⟩]]).2 ∧
    (call_execute oracle1 [[⟨1⟩, ⟨2⟩], [⟨3⟩]]).2
      = [Ev.call .getExecutable, Ev.call .numOutputs] :=
  c2_eager_check_panics oracle1 [[⟨1⟩, ⟨2⟩], [⟨3⟩]] (by decide)

/-- C5: when the marshaling succeeded but the execute entry point itself
fails (the error bridge returns Err), call_execute returns that error and
constructs no Event and no Buffer wrapper: every event in its trace is a
plain foreign call, none is a wrapper construction. -/
theorem c5_failed_execute_yields_nothing (o : ExecOracle)
    (inputs : List (List Buffer)) (bufs : List (List Ptr))
    (hok : vecVecBufferPtrs inputs = .ok bufs) (he : o.executeError ≠ 0) :
    (call_execute o inputs).1 = .err (.pjrtError o.executeErrorMsg) ∧
    ((call_execute o inputs).2.all (fun e => !(isWrap e))) = true := by
  have hne := vecVecBufferPtrs_ok_ne_nil inputs bufs hok
  have heq := vecVecBufferPtrs_ok_eq inputs bufs hok
  cases hb : bufs with
  | nil =>
    exfalso
    rw [hb] at heq
    exact hne (by simpa using heq.symm)
  | cons x xs =>
    rw [hb] at hok
    constructor
    · simp [call_execute, hok, he]
    · simp [call_execute, hok, he, isWrap]

/-- C5 witness: the theorem at a concrete failing oracle and input. -/
theorem c5_failed_execute_yields_nothing_witness :
    (call_execute oracleFail [[⟨5⟩]]).1 = .err (.pjrtError "execute boom") ∧
    ((call_execute oracleFail [[⟨5⟩]]).2.all (fun e => !(isWrap e))) = true :=
  c5_failed_execute_yields_nothing oracleFail [[⟨5⟩]] [[5]]
    (by decide) (by decide)

/-- C10: the list-of-lists marshaling rejects an empty outer list - the
set of inner lengths is empty, so the assert_eq on its cardinality fails -
and whenever it succeeds the produced handle matrix has at least one row,
so the indexing of the first device row in call_execute is in bounds for
this input shape. -/
theorem c10_empty_outer_list_rejected :
    vecVecBufferPtrs []
      = .panicked "all inner vectors must have the same length" ∧
    ∀ (inputs : List (List Buffer)) (bufs : List (List Ptr)),
      vecVecBufferPtrs inputs = .ok bufs → 0 < bufs.length := by
  constructor
  · rfl
  · intro inputs bufs hok
    have hne := vecVecBufferPtrs_ok_ne_nil inputs bufs hok
    have heq := vecVecBufferPtrs_ok_eq inputs bufs hok
    rw [heq, List.length_map]
    exact List.length_pos.2 hne

/-- C10 witness: the theorem applied at a one-row input. -/
theorem c10_empty_outer_list_rejected_witness :
    0 < ([[(1 : Ptr)]] : List (List Ptr)).length :=
  c10_empty_outer_list_rejected.2 [[⟨1⟩]] [[1]] (by decide)

/-! ## Event consumption (execute_sync and the suspension-based execute)

The Event wrapper module (event.rs) is part of this repository but is not
under src; its consumption semantics below are modelled from the spec:
either consumption style resolves the outcome of the foreign completion
signal and ends with the native handle destroyed exactly once, and an
Event dropped without being consumed is still released exactly once
(guaranteed release on every exit path). -/

/-- Modelled from the spec: consuming one Event performs its readiness
foreign call (the blocking await for wait, the callback registration for
the suspension-based future - selected by decor), resolves the per-event
outcome res, and destroys the native handle. -/
def Event.consume (decor : Ptr → FCall) (res : Ptr → Option String)
    (e : Ptr) : Outcome Unit × List Ev :=
  match res e with
  | none => (.ok (), [Ev.call (decor e), Ev.call (.eventDestroy e)])
  | some msg =>
    (.err (.pjrtError msg), [Ev.call (decor e), Ev.call (.eventDestroy e)])

/-- Modelled from the spec: dropping an unconsumed Event still destroys
its native handle exactly once. -/
def Event.dropTrace (e : Ptr) : List Ev := [Ev.call (.eventDestroy e)]

/-- The consumption loop over the returned events with the question-mark
operator: the first failure exits the loop early, and the remaining events
are dropped, which still destroys their handles. -/
def consumeLoop (decor : Ptr → FCall) (res : Ptr → Option String) :
    List Ptr → Outcome Unit × List Ev
  | [] => (.ok (), [])
  | e :: rest =>
    match Event.consume decor res e with
    | (.ok _, t) =>
      let r := consumeLoop decor res rest
      (r.1, t ++ r.2)
    | (.err er, t) => (.err er, t ++ (rest.map Event.dropTrace).flatten)
    | (.panicked m, t) => (.panicked m, t)

/-- LoadedExecutable::execute_sync: call_execute, then wait on every event
in order, returning the outputs or the first per-event failure. -/
def execute_sync (o : ExecOracle) (res : Ptr → Option String)
    (inputs : List (List Buffer)) : Outcome (List (List Ptr)) × List Ev :=
  match call_execute o inputs with
  | (.ok (events, outputs), t) =>
    let r := consumeLoop FCall.eventAwait res events
    (match r.1 with
      | .ok _ => .ok outputs
      | .err er => .err er
      | .panicked m => .panicked m, t ++ r.2)
  | (.err er, t) => (.err er, t)
  | (.panicked m, t) => (.panicked m, t)

/-- LoadedExecutable::execute (the async helper): call_execute, then await
every event in order through the suspension-based path. -/
def execute_async (o : ExecOracle) (res : Ptr → Option String)
    (inputs : List (List Buffer)) : Outcome (List (List Ptr)) × List Ev :=
  match call_execute o inputs with
  | (.ok (events, outputs), t) =>
    let r := consumeLoop FCall.eventOnReady res events
    (match r.1 with
      | .ok _ => .ok outputs
      | .err er => .err er
      | .panicked m => .panicked m, t ++ r.2)
  | (.err er, t) => (.err er, t)
  | (.panicked m, t) => (.panicked m, t)

/-- Every listed event handle is destroyed in the trace exactly as many
times as it occurs in the list. -/
def eventsAllConsumed (events : List Ptr) (t : List Ev) : Bool :=
  events.all
    (fun e => t.count (Ev.call (.eventDestroy e)) == events.count e)

/-- The first per-event failure, in list order. -/
def firstFailure (res : Ptr → Option String) (events : List Ptr) :
    Option String :=
  events.findSome? res

/-- Dropping a list of events destroys each handle once per occurrence. -/
theorem dropAll_destroy_count (rest : List Ptr) (e : Ptr) :
    ((rest.map Event.dropTrace).flatten).count (Ev.call (.eventDestroy e))
      = rest.count e := by
  induction rest with
  | nil => rfl
  | cons x xs ih =>
    simp only [List.map_cons, List.flatten_cons, List.count_append, ih,
      Event.dropTrace, List.count_cons, List.count_nil]
    simp only [List.count_cons, List.count_nil, beq_iff_eq, Ev.call.injEq,
      FCall.eventDestroy.injEq, Nat.zero_add]
    exact Nat.add_comm _ _

/-- The consumption loop destroys each listed handle exactly as often as
it occurs, whether the loop runs to completion or exits on a failure. -/
theorem consumeLoop_destroy_count (decor : Ptr → FCall)
    (res : Ptr → Option String) (events : List Ptr) (e : Ptr)
    (hdec : ∀ x, decor x ≠ FCall.eventDestroy e) :
    (consumeLoop decor res events).2.count (Ev.call (.eventDestroy e))
      = events.count e := by
  induction events with
  | nil => rfl
  | cons x xs ih =>
    cases hres : res x with
    | none =>
      simp only [consumeLoop, Event.consume, hres, List.count_append, ih,
        List.count_cons, List.count_nil, beq_iff_eq, Ev.call.injEq,
        FCall.eventDestroy.injEq]
      split_ifs <;>
        first
        | omega
        | (exfalso
           exact hdec x (by assumption))
    | some m =>
      simp only [consumeLoop, Event.consume, hres, List.count_append,
        dropAll_destroy_count, List.count_cons, List.count_nil, beq_iff_eq,
        Ev.call.injEq, FCall.eventDestroy.injEq]
      split_ifs <;>
        first
        | omega
        | (exfalso
           exact hdec x (by assumption))

/-- The consumption loop surfaces the first per-event failure, or succeeds
when every event resolves successfully. -/
theorem consumeLoop_outcome (decor : Ptr → FCall)
    (res : Ptr → Option String) (events : List Ptr) :
    (consumeLoop decor res events).1 =
      (match firstFailure res events with
        | none => .ok ()
        | some m => .err (.pjrtError m)) := by
  induction events with
  | nil => rfl
  | cons x xs ih =>
    cases hres : res x with
    | none => simpa [consumeLoop, Event.consume, hres, firstFailure] using ih
    | some m => simp [consumeLoop, Event.consume, hres, firstFailure]

/-- A map of wrapEvent constructions contains no foreign call. -/
theorem count_call_map_wrapEvent (c : FCall) (l : List Ptr) :
    (l.map Ev.wrapEvent).count (Ev.call c) = 0 := by
  rw [List.count_eq_zero]
  intro hm
  rcases List.mem_map.1 hm with ⟨x, _, hx⟩
  cases hx

/-- A map of wrapBuffer constructions contains no foreign call. -/
theorem count_call_map_wrapBuffer (c : FCall) (l : List Ptr) :
    (l.map Ev.wrapBuffer).count (Ev.call c) = 0 := by
  rw [List.count_eq_zero]
  intro hm
  rcases List.mem_map.1 hm with ⟨x, _, hx⟩
  cases hx

/-- The trace of call_execute never destroys an event handle: the events
it produces are handed to the caller unconsumed. -/
theorem call_execute_no_event_destroy (o : ExecOracle)
    (inputs : List (List Buffer)) (e : Ptr) :
    (call_execute o inputs).2.count (Ev.call (.eventDestroy e)) = 0 := by
  unfold call_execute
  cases hv : vecVecBufferPtrs inputs with
  | panicked m => simp
  | err er => simp
  | ok input_buffers =>
    cases input_buffers with
    | nil => simp
    | cons x xs =>
      dsimp only
      split
      · rw [List.count_eq_zero]
        intro hm
        simp at hm
      · split
        · rw [List.count_eq_zero]
          intro hm
          simp at hm
        · split
          · rw [List.count_eq_zero]
            intro hm
            simp at hm
          · rw [List.count_eq_zero]
            intro hm
            simp at hm

/-- C3: for both consumption helpers (the blocking execute_sync and the
suspension-based execute), whenever the raw execution call succeeded with
event list events, every completion event is consumed - its native handle
destroyed exactly once per occurrence, by a wait or by the drop of the
remaining events after an early failure - before the helper returns, and
the surfaced result is the first per-event failure, or the outputs when
all events succeed. -/
theorem c3_all_events_consumed (o : ExecOracle) (res : Ptr → Option String)
    (inputs : List (List Buffer)) (events : List Ptr)
    (outputs : List (List Ptr)) (t : List Ev)
    (hc : call_execute o inputs = (.ok (events, outputs), t)) :
    (eventsAllConsumed events (execute_sync o res inputs).2 = true ∧
      (execute_sync o res inputs).1 =
        (match firstFailure res events with
          | none => .ok outputs
          | some m => .err (.pjrtError m))) ∧
    (eventsAllConsumed events (execute_async o res inputs).2 = true ∧
      (execute_async o res inputs).1 =
        (match firstFailure res events with
          | none => .ok outputs
          | some m => .err (.pjrtError m))) := by
  have htc : ∀ e : Ptr, t.count (Ev.call (.eventDestroy e)) = 0 := by
    intro e
    have h0 := call_execute_no_event_destroy o inputs e
    rw [hc] at h0
    exact h0
  have hsync2 : (execute_sync o res inputs).2 =
      t ++ (consumeLoop FCall.eventAwait res events).2 := by
    simp [execute_sync, hc]
  have hasync2 : (execute_async o res inputs).2 =
      t ++ (consumeLoop FCall.eventOnReady res events).2 := by
    simp [execute_async, hc]
  have hconsumed : ∀ decor : Ptr → FCall,
      (∀ x e, decor x ≠ FCall.eventDestroy e) →
      eventsAllConsumed events
        (t ++ (consumeLoop decor res events).2) = true := by
    intro decor hdec
    simp only [eventsAllConsumed, List.all_eq_true]
    intro e he
    rw [List.count_append, htc e,
      consumeLoop_destroy_count decor res events e (fun x => hdec x e)]
    simp
  have hawait : ∀ x e : Ptr, FCall.eventAwait x ≠ FCall.eventDestroy e := by
    intro x e h
    cases h
  have honready : ∀ x e : Ptr,
      FCall.eventOnReady x ≠ FCall.eventDestroy e := by
    intro x e h
    cases h
  refine ⟨⟨?_, ?_⟩, ⟨?_, ?_⟩⟩
  · rw [hsync2]
    exact hconsumed FCall.eventAwait hawait
  · simp only [execute_sync, hc]
    rw [consumeLoop_outcome FCall.eventAwait res events]
    cases hf : firstFailure res events <;> simp [hf]
  · rw [hasync2]
    exact hconsumed FCall.eventOnReady honready
  · simp only [execute_async, hc]
    rw [consumeLoop_outcome FCall.eventOnReady res events]
    cases hf : firstFailure res events <;> simp [hf]

/-- A per-event resolution in which the first event (handle 20) fails. -/
def res3 : Ptr → Option String :=
  fun e => if e = 20 then some "boom0" else none

/-- C3 witness: a concrete two-device run in which the first event fails
with boom0; both helpers destroy both event handles exactly once and
surface that first failure. -/
theorem c3_all_events_consumed_witness :
    (eventsAllConsumed [20, 21]
        (execute_sync oracle1 res3 [[⟨1⟩], [⟨2⟩]]).2 = true ∧
      (execute_sync oracle1 res3 [[⟨1⟩], [⟨2⟩]]).1 =
        .err (.pjrtError "boom0")) ∧
    (eventsAllConsumed [20, 21]
        (execute_async oracle1 res3 [[⟨1⟩], [⟨2⟩]]).2 = true ∧
      (execute_async oracle1 res3 [[⟨1⟩], [⟨2⟩]]).1 =
        .err (.pjrtError "boom0")) :=
  c3_all_events_consumed oracle1 res3 [[⟨1⟩], [⟨2⟩]] [20, 21] [[11], [11]]
    [Ev.call .getExecutable, Ev.call .numOutputs, Ev.call .execute,
      Ev.wrapEvent 20, Ev.wrapEvent 21, Ev.wrapBuffer 11, Ev.wrapBuffer 11]
    (by decide)

/-! ## Plugin initialization (api.rs Api::new and the plugin registry) -/

/-- Api::new (api.rs): asserts the function-table pointer is non-null,
then issues exactly one PJRT_Plugin_Initialize call through that table;
the wrapped table pointer is immutable afterwards (the wrapper only
reference-counts it). -/
def Api.new (p : Ptr) : Outcome Ptr × List Ev :=
  if p = 0 then (.panicked "assertion failed: !ptr.is_null()", [])
  else (.ok p, [Ev.call (.pluginInitialize p)])

/-- One observable step of a process using the crate: loading a plugin by
library path, or performing an ordinary Api operation, modelled by an
error-bridge resolution standing for the foreign-call wrappers. -/
inductive ProcOp where
  | load (path : String)
  | useApi (e : Ptr)
deriving DecidableEq, Repr

/-- Modelled from the spec: the process-wide plugin registry behind
load_plugin is part of this repository but is not under src. Per the spec
there is exactly one initialization call per process per loaded plugin, so
the registry keeps one Api per plugin path, constructs it through Api.new
(the src code, which initializes exactly once per construction) only when
the path is not yet cached, and returns the cached Api on later loads; a
panic in Api.new aborts the run. ptrOf gives the function-table pointer
the dynamic loader resolves for a library path. -/
def runProc (ptrOf : String → Ptr) (tbl : ErrorTable) :
    List ProcOp → List (String × Ptr) → List (String × Ptr) × List Ev
  | [], st => (st, [])
  | .load path :: rest, st =>
    match st.lookup path with
    | some _ => runProc ptrOf tbl rest st
    | none =>
      match Api.new (ptrOf path) with
      | (.ok a, t) =>
        let r := runProc ptrOf tbl rest ((path, a) :: st)
        (r.1, t ++ r.2)
      | (_, t) => (st, t)
  | .useApi e :: rest, st =>
    let t := (Api.err_or tbl e (0 : Nat)).2
    let r := runProc ptrOf tbl rest st
    (r.1, t ++ r.2)

/-- Among the load operations of ops, no other path resolves to the same
function table as path (decidable form of local injectivity). -/
def loadsInjAt (ptrOf : String → Ptr) (path : String)
    (ops : List ProcOp) : Bool :=
  ops.all fun op =>
    match op with
    | .load q => decide (ptrOf q = ptrOf path → q = path)
    | .useApi _ => true

/-- The propositional content of loadsInjAt. -/
theorem loadsInjAt_spec (ptrOf : String → Ptr) (path : String)
    (ops : List ProcOp) (h : loadsInjAt ptrOf path ops = true) :
    ∀ q, ProcOp.load q ∈ ops → ptrOf q = ptrOf path → q = path := by
  intro q hq hp
  have hd := List.all_eq_true.1 h (ProcOp.load q) hq
  exact of_decide_eq_true hd hp

/-- The error bridge never issues a plugin-initialization call. -/
theorem err_or_no_init (tbl : ErrorTable) (e : Ptr) (p : Ptr) :
    ((Api.err_or tbl e (0 : Nat)).2).count
      (Ev.call (.pluginInitialize p)) = 0 := by
  unfold Api.err_or
  split_ifs <;> simp

/-- Looking up a freshly prepended key yields its value. -/
theorem lookup_cons_self (st : List (String × Ptr)) (q : String) (v : Ptr) :
    ((q, v) :: st).lookup q = some v := by
  simp [List.lookup]

/-- Looking up a different key skips a prepended binding. -/
theorem lookup_cons_ne (st : List (String × Ptr)) (q path : String)
    (v : Ptr) (h : path ≠ q) :
    ((q, v) :: st).lookup path = st.lookup path := by
  have hbe : (path == q) = false := beq_eq_false_iff_ne.2 h
  simp [List.lookup, hbe]

/-- Once a plugin is cached in the registry, no further operation issues
an initialization call for its function table. -/
theorem runProc_no_reinit (ptrOf : String → Ptr) (tbl : ErrorTable)
    (ops : List ProcOp) (path : String) :
    ∀ (st : List (String × Ptr)) (a : Ptr), st.lookup path = some a →
    (∀ q, ProcOp.load q ∈ ops → ptrOf q = ptrOf path → q = path) →
    (runProc ptrOf tbl ops st).2.count
      (Ev.call (.pluginInitialize (ptrOf path))) = 0 := by
  induction ops with
  | nil =>
    intro st a hst hinj
    rfl
  | cons op rest ih =>
    intro st a hst hinj
    have hinjr : ∀ q, ProcOp.load q ∈ rest → ptrOf q = ptrOf path →
        q = path := fun q hq => hinj q (List.mem_cons_of_mem _ hq)
    cases op with
    | useApi e =>
      simp only [runProc, List.count_append, err_or_no_init,
        ih st a hst hinjr]
    | load q =>
      cases hl : st.lookup q with
      | some b =>
        simp only [runProc, hl]
        exact ih st a hst hinjr
      | none =>
        have hqp : q ≠ path := by
          intro hqe
          rw [hqe, hst] at hl
          cases hl
        by_cases hp : ptrOf q = 0
        · simp only [runProc, hl, Api.new, hp, if_pos rfl]
          rfl
        · have hq : ptrOf q ≠ ptrOf path := by
            intro hqq
            exact hqp (hinj q (List.mem_cons_self _ _) hqq)
          simp only [runProc, hl, Api.new, if_neg hp, List.count_append]
          have hst2 : ((q, ptrOf q) :: st).lookup path = some a := by
            rw [lookup_cons_ne st q path (ptrOf q) (Ne.symm hqp)]
            exact hst
          rw [ih _ a hst2 hinjr, Nat.add_zero]
          rw [List.count_eq_zero]
          intro hm
          simp only [List.mem_singleton, Ev.call.injEq,
            FCall.pluginInitialize.injEq] at hm
          exact hq (Eq.symm hm)

/-- At most one initialization call per function table, starting from a
registry that does not yet cache the path. -/
theorem runProc_init_once (ptrOf : String → Ptr) (tbl : ErrorTable)
    (ops : List ProcOp) (path : String) :
    ∀ st : List (String × Ptr), st.lookup path = none →
    (∀ q, ProcOp.load q ∈ ops → ptrOf q = ptrOf path → q = path) →
    (runProc ptrOf tbl ops st).2.count
      (Ev.call (.pluginInitialize (ptrOf path))) ≤ 1 := by
  induction ops with
  | nil =>
    intro st hst hinj
    simp [runProc]
  | cons op rest ih =>
    intro st hst hinj
    have hinjr : ∀ q, ProcOp.load q ∈ rest → ptrOf q = ptrOf path →
        q = path := fun q hq => hinj q (List.mem_cons_of_mem _ hq)
    cases op with
    | useApi e =>
      simp only [runProc, List.count_append, err_or_no_init, Nat.zero_add]
      exact ih st hst hinjr
    | load q =>
      cases hl : st.lookup q with
      | some b =>
        simp only [runProc, hl]
        exact ih st hst hinjr
      | none =>
        by_cases hp : ptrOf q = 0
        · simp only [runProc, hl, Api.new, hp, if_pos rfl]
          simp
        · by_cases hq : ptrOf q = ptrOf path
          · have hqp : q = path := hinj q (List.mem_cons_self _ _) hq
            subst hqp
            simp only [runProc, hl, Api.new, if_neg hp, List.count_append]
            have hst2 : ((q, ptrOf q) :: st).lookup q = some (ptrOf q) :=
              lookup_cons_self st q (ptrOf q)
            rw [runProc_no_reinit ptrOf tbl rest q _ (ptrOf q) hst2 hinjr]
            simp
          · have hqp : q ≠ path := by
              intro hqe
              rw [hqe] at hq
              exact hq rfl
            simp only [runProc, hl, Api.new, if_neg hp, List.count_append]
            have hst2 : ((q, ptrOf q) :: st).lookup path = none := by
              rw [lookup_cons_ne st q path (ptrOf q) (Ne.symm hqp)]
              exact hst
            have hrest := ih _ hst2 hinjr
            have hone : List.count
                (Ev.call (FCall.pluginInitialize (ptrOf path)))
                [Ev.call (FCall.pluginInitialize (ptrOf q))] = 0 := by
              rw [List.count_eq_zero]
              intro hm
              simp only [List.mem_singleton, Ev.call.injEq,
                FCall.pluginInitialize.injEq] at hm
              exact hq (Eq.symm hm)
            rw [hone]
            omega

/-- Registry bindings are never overwritten or removed: a cached Api for a
path survives any further sequence of operations unchanged. -/
theorem runProc_lookup_mono (ptrOf : String → Ptr) (tbl : ErrorTable)
    (ops : List ProcOp) :
    ∀ (st : List (String × Ptr)) (path : String) (a : Ptr),
    st.lookup path = some a →
    ((runProc ptrOf tbl ops st).1).lookup path = some a := by
  induction ops with
  | nil =>
    intro st path a hst
    exact hst
  | cons op rest ih =>
    intro st path a hst
    cases op with
    | useApi e =>
      simp only [runProc]
      exact ih st path a hst
    | load q =>
      cases hl : st.lookup q with
      | some b =>
        simp only [runProc, hl]
        exact ih st path a hst
      | none =>
        have hqp : q ≠ path := by
          intro hqe
          rw [hqe, hst] at hl
          cases hl
        by_cases hp : ptrOf q = 0
        · simp only [runProc, hl, Api.new, hp, if_pos rfl]
          exact hst
        · simp only [runProc, hl, Api.new, if_neg hp]
          refine ih _ path a ?_
          rw [lookup_cons_ne st q path (ptrOf q) (Ne.symm hqp)]
          exact hst

/-- Extending a run with further operations preserves cached bindings. -/
theorem runProc_append_lookup (ptrOf : String → Ptr) (tbl : ErrorTable)
    (ops ops2 : List ProcOp) :
    ∀ (st : List (String × Ptr)) (path : String) (a : Ptr),
    ((runProc ptrOf tbl ops st).1).lookup path = some a →
    ((runProc ptrOf tbl (ops ++ ops2) st).1).lookup path = some a := by
  induction ops with
  | nil =>
    intro st path a hst
    exact runProc_lookup_mono ptrOf tbl ops2 st path a hst
  | cons op rest ih =>
    intro st path a hst
    cases op with
    | useApi e =>
      simp only [runProc, List.cons_append] at hst ⊢
      exact ih st path a hst
    | load q =>
      cases hl : st.lookup q with
      | some b =>
        simp only [runProc, hl, List.cons_append] at hst ⊢
        exact ih st path a hst
      | none =>
        by_cases hp : ptrOf q = 0
        · simp only [runProc, hl, Api.new, hp, if_pos rfl,
            List.cons_append] at hst ⊢
          exact hst
        · simp only [runProc, hl, Api.new, if_neg hp,
            List.cons_append] at hst ⊢
          exact ih _ path a hst

/-- C9: through the process-wide registry, any sequence of plugin loads
and Api operations issues at most one plugin-initialization call for the
function table of a given library path (provided no other loaded path
resolves to the same table), and a cached Api binding - the function-table
handle - is never mutated by any further sequence of operations. Api::new
itself, from src, issues exactly one initialization per construction, and
no other Api operation initializes at all. -/
theorem c9_plugin_init_unique (ptrOf : String → Ptr)
    (tbl : ErrorTable) (ops ops2 : List ProcOp) (path : String) (a : Ptr)
    (hinj : loadsInjAt ptrOf path ops = true) :
    (runProc ptrOf tbl ops []).2.count
      (Ev.call (.pluginInitialize (ptrOf path))) ≤ 1 ∧
    (((runProc ptrOf tbl ops []).1).lookup path = some a →
      ((runProc ptrOf tbl (ops ++ ops2) []).1).lookup path = some a) :=
  ⟨runProc_init_once ptrOf tbl ops path [] rfl
      (loadsInjAt_spec ptrOf path ops hinj),
    fun h => runProc_append_lookup ptrOf tbl ops ops2 [] path a h⟩

/-- The loader map of the C9 witness: path a resolves to table 1, any
other path to table 2. -/
def ptrOfW : String → Ptr := fun q => if q = "a" then 1 else 2

/-- The operation sequence of the C9 witness: load a, use the Api, load a
again, load b. -/
def opsW : List ProcOp :=
  [.load "a", .useApi 0, .load "a", .load "b"]

/-- C9 witness: running the concrete sequence initializes table 1 exactly
once even though path a is loaded twice, and the cached binding for a
survives a further load. -/
theorem c9_plugin_init_unique_witness :
    (runProc ptrOfW goodTable opsW []).2.count
      (Ev.call (.pluginInitialize (ptrOfW "a"))) ≤ 1 ∧
    ((runProc ptrOfW goodTable (opsW ++ [.load "a"]) []).1).lookup "a"
      = some 1 :=
  ⟨(c9_plugin_init_unique ptrOfW goodTable opsW [.load "a"] "a" 1
      (by decide)).1,
    (c9_plugin_init_unique ptrOfW goodTable opsW [.load "a"] "a" 1
      (by decide)).2 (by decide)⟩

end PjrtRs
